import Mathlib

/-!
Shallow embedding of the caddy-blocker middleware (`caddy_blocker.go`).

The middleware keys an attempt counter on the host part of the request's
remote address, rejects a request with HTTP 401 when the stored counter
exceeds a configured maximum, otherwise forwards it through a
status-recording response-writer wrapper, and afterwards — when the
captured status is 401 or 403 — stores the previously read counter plus
one and writes one notification line to its sink.
-/

set_option autoImplicit false

namespace CaddyBlocker

/-! ### Response writer model

`loggingResponseWriter` embeds the underlying `http.ResponseWriter`; the
underlying writer is modelled as the list of events forwarded to it.
-/

/-- An event forwarded to the underlying response writer: a status header
or a chunk of body bytes. -/
inductive WEvent where
  | header (code : Nat)
  | body (bytes : String)
deriving DecidableEq, Repr

/-- State of `loggingResponseWriter`: the `statusCode` field plus the
events passed through to the wrapped `http.ResponseWriter`. -/
structure LoggingResponseWriter where
  statusCode : Nat
  events : List WEvent
deriving DecidableEq, Repr

/-- `NewLoggingResponseWriter` (line 29-31): starts with `http.StatusOK`. -/
def NewLoggingResponseWriter : LoggingResponseWriter :=
  { statusCode := 200, events := [] }

/-- `loggingResponseWriter.WriteHeader` (lines 33-36): records the code and
forwards the call to the wrapped writer. -/
def lrwWriteHeader (lrw : LoggingResponseWriter) (code : Nat) : LoggingResponseWriter :=
  { statusCode := code, events := lrw.events ++ [WEvent.header code] }

/-- `Write` is inherited from the embedded `http.ResponseWriter`: bytes
pass through and the recorded status is untouched. -/
def lrwWrite (lrw : LoggingResponseWriter) (bytes : String) : LoggingResponseWriter :=
  { lrw with events := lrw.events ++ [WEvent.body bytes] }

/-- A call the downstream handler makes on the response writer handed to it. -/
inductive RWAction where
  | writeHeader (code : Nat)
  | write (bytes : String)
deriving DecidableEq, Repr

/-- Dispatch one downstream call to the wrapper. -/
def applyAction (lrw : LoggingResponseWriter) (a : RWAction) : LoggingResponseWriter :=
  match a with
  | RWAction.writeHeader c => lrwWriteHeader lrw c
  | RWAction.write bs => lrwWrite lrw bs

/-- Run the downstream handler's sequence of response-writer calls. -/
def runActions (lrw : LoggingResponseWriter) (acts : List RWAction) : LoggingResponseWriter :=
  acts.foldl applyAction lrw

/-- The event the wrapper forwards for one downstream call. -/
def actionEvent : RWAction → WEvent
  | RWAction.writeHeader c => WEvent.header c
  | RWAction.write bs => WEvent.body bs

/-- Fold step computing the code of the last `WriteHeader` call, if any. -/
def lastSetStep (acc : Option Nat) (a : RWAction) : Option Nat :=
  match a with
  | RWAction.writeHeader c => some c
  | RWAction.write _ => acc

/-- Code of the last status-setting call in a downstream action sequence. -/
def lastSetCode (acts : List RWAction) : Option Nat :=
  acts.foldl lastSetStep none

/-! ### `net.SplitHostPort`

Modelled from the spec: the address-splitting collaborator
(`net.SplitHostPort` from the Go standard library, not part of `src/`),
which splits `host:port` (with `[host]:port` for bracketed hosts) and
returns empty host and port together with an error when the address has
no colon, too many colons, or ill-placed brackets.
-/

/-- Index of the first occurrence of `c` at or after position `i`. -/
def firstIdxFrom : List Char → Char → Nat → Option Nat
  | [], _, _ => none
  | x :: rest, c, i => if x = c then some i else firstIdxFrom rest c (i + 1)

/-- Index of the first occurrence of a character. -/
def firstIdx (cs : List Char) (c : Char) : Option Nat :=
  firstIdxFrom cs c 0

/-- Index of the last occurrence of a character. -/
def lastIdx (cs : List Char) (c : Char) : Option Nat :=
  match firstIdx cs.reverse c with
  | none => none
  | some j => some (cs.length - 1 - j)

/-- Split `hostport` into host, port and an optional error, following the
standard library's algorithm: the port starts after the last colon; a
leading bracket must close just before that colon; stray brackets or
extra colons are errors.  On error both returned components are empty. -/
def splitHostPort (hostport : String) : String × String × Option String :=
  let cs := hostport.toList
  match lastIdx cs ':' with
  | none => ("", "", some "missing port in address")
  | some i =>
    if cs.head? = some '[' then
      match firstIdx cs ']' with
      | none => ("", "", some "missing \x27]\x27 in address")
      | some e =>
        if e + 1 = cs.length then ("", "", some "missing port in address")
        else if e + 1 = i then
          if (cs.drop 1).contains '[' then ("", "", some "missing brackets in address")
          else if (cs.drop (e + 1)).contains ']' then
            ("", "", some "unexpected \x27]\x27 in address")
          else (String.mk ((cs.drop 1).take (e - 1)), String.mk (cs.drop (i + 1)), none)
        else if cs.get? (e + 1) = some ':' then ("", "", some "too many colons in address")
        else ("", "", some "missing port in address")
    else
      let host := cs.take i
      if host.contains ':' then ("", "", some "too many colons in address")
      else if cs.contains '[' then ("", "", some "missing brackets in address")
      else if cs.contains ']' then ("", "", some "unexpected \x27]\x27 in address")
      else (String.mk host, String.mk (cs.drop (i + 1)), none)

/-! ### Counter store

The expirable LRU cache (`expirablelru.Cache`) is modelled as a list of
entries carrying a key, the stored count, and the absolute expiry
instant, kept in recency order with the most recently updated entry
first.  `Get` treats an expired entry as absent; `Add` overwrites the
entry for the key at the front with a restarted expiry and, when a
positive capacity is exceeded by the insert, removes the
least-recently-used entry — the tail of the list.  `Get`'s move-to-front
of the queried key is not modelled: within one request the only entry it
could move is the one the subsequent `Add` overwrites (and removes from
its old position) anyway, so it cannot change that `Add`'s eviction
victim or the resulting entry set.
-/

/-- One stored counter entry: client key, attempt count, expiry instant. -/
structure CacheEntry where
  key : String
  count : Int
  expiresAt : Int
deriving DecidableEq, Repr

/-- `lruCache.Get`: the stored count, or `none` when absent or expired. -/
def lruGet (cache : List CacheEntry) (now : Int) (k : String) : Option Int :=
  match cache.find? (fun e => e.key == k) with
  | some e => if now < e.expiresAt then some e.count else none
  | none => none

/-- `Cache.Add`'s capacity check: when the configured size is positive and
the store exceeds it, remove the least-recently-used entry, i.e. the tail
of the recency-ordered list (`removeOldest`). -/
def evictOldest (entries : List CacheEntry) (size : Int) : List CacheEntry :=
  if 0 < size ∧ size < (entries.length : Int) then entries.dropLast else entries

/-- `lruCache.Add`: insert or overwrite the entry for `k` at the front,
with expiry restarted to `now + ttl`, then evict the least-recently-used
entry if a positive capacity is exceeded. -/
def lruAdd (cache : List CacheEntry) (now ttl size : Int) (k : String) (v : Int) :
    List CacheEntry :=
  evictOldest
    ({ key := k, count := v, expiresAt := now + ttl } :: cache.filter (fun e => !(e.key == k)))
    size

/-- The raw count physically stored for a key, ignoring expiry. -/
def storedCount (cache : List CacheEntry) (k : String) : Option Int :=
  (cache.find? (fun e => e.key == k)).map (fun e => e.count)

/-! ### Configuration and `Provision` -/

/-- The provisioned middleware: parsed maximum, block duration (TTL) and
cache capacity (lines 40-51; the sink is modelled separately as the list
of lines written to it). -/
structure Middleware where
  maxUnAuthTimes : Int
  blockDuration : Int
  cacheSize : Int
deriving DecidableEq, Repr

/-- The raw configuration strings (fields `MaxUnAuthTimes`,
`BlockDuration`, `CacheSize` of the `Middleware` struct). -/
structure MiddlewareConfig where
  MaxUnAuthTimes : String
  BlockDuration : String
  CacheSize : String
deriving DecidableEq, Repr

/-- Value of a non-empty all-digit prefix; `none` on a non-digit. -/
def digitsToNatAux : List Char → Nat → Option Nat
  | [], acc => some acc
  | c :: rest, acc =>
    if c.isDigit then digitsToNatAux rest (acc * 10 + (c.toNat - 48)) else none

/-- Decimal value of a non-empty digit string, `none` otherwise. -/
def digitsToNat (cs : List Char) : Option Nat :=
  match cs with
  | [] => none
  | _ => digitsToNatAux cs 0

/-- Modelled from the spec: `strconv.Atoi` (standard library, not in
`src/`): an optional sign followed by at least one decimal digit, with
the 64-bit `int` range check; malformed input is an error (`none`). -/
def atoi (s : String) : Option Int :=
  match s.toList with
  | '-' :: rest =>
    (digitsToNat rest).bind (fun n => if (n : Int) ≤ 2 ^ 63 then some (-(n : Int)) else none)
  | '+' :: rest =>
    (digitsToNat rest).bind (fun n => if (n : Int) < 2 ^ 63 then some (n : Int) else none)
  | cs =>
    (digitsToNat cs).bind (fun n => if (n : Int) < 2 ^ 63 then some (n : Int) else none)

/-- Nanoseconds per duration unit, as in Go's `unitMap`. -/
def unitNanos (u : List Char) : Option Nat :=
  if u = ['n', 's'] then some 1
  else if u = ['u', 's'] then some 1000
  else if u = ['µ', 's'] then some 1000
  else if u = ['μ', 's'] then some 1000
  else if u = ['m', 's'] then some 1000000
  else if u = ['s'] then some 1000000000
  else if u = ['m'] then some 60000000000
  else if u = ['h'] then some 3600000000000
  else none

/-- Sum, in nanoseconds, of a sequence of `digits unit` terms (fuelled by
the remaining length; each term consumes at least one character). -/
def parseTermsAux : Nat → List Char → Option Nat
  | _, [] => some 0
  | 0, _ :: _ => none
  | fuel + 1, c :: rest =>
    let ds := (c :: rest).takeWhile Char.isDigit
    let r1 := (c :: rest).dropWhile Char.isDigit
    match digitsToNat ds with
    | none => none
    | some v =>
      let u := r1.takeWhile (fun ch => !ch.isDigit && !(ch == '.'))
      let r2 := r1.dropWhile (fun ch => !ch.isDigit && !(ch == '.'))
      match unitNanos u with
      | none => none
      | some un =>
        match parseTermsAux fuel r2 with
        | none => none
        | some tail => some (v * un + tail)

/-- Modelled from the spec: `time.ParseDuration` (standard library, not in
`src/`), restricted to fraction-free duration literals: an optional sign,
the special case `0`, and otherwise one or more integer-and-unit terms
over the units ns, us, ms, s, m, h. -/
def parseDuration (s : String) : Option Int :=
  let p : Bool × List Char :=
    match s.toList with
    | '-' :: rest => (true, rest)
    | '+' :: rest => (false, rest)
    | rest => (false, rest)
  let neg := p.1
  let cs := p.2
  if cs = ['0'] then some 0
  else if cs = [] then none
  else
    match parseTermsAux cs.length cs with
    | none => none
    | some n =>
      if neg then
        if (n : Int) ≤ 2 ^ 63 then some (-(n : Int)) else none
      else
        if (n : Int) < 2 ^ 63 then some (n : Int) else none

/-- `Middleware.Provision` (lines 62-81): parse the block duration, then
the cache size, then the maximum; the first parse failure aborts with the
corresponding error.  Parsed values are stored without any sign or range
validation (the LRU constructor at line 72 returns no error). -/
def Provision (cfg : MiddlewareConfig) : Except String Middleware :=
  match parseDuration cfg.BlockDuration with
  | none => Except.error ("block_duration is wrong with value: " ++ cfg.BlockDuration)
  | some d =>
    match atoi cfg.CacheSize with
    | none => Except.error ("cache_size is wrong with value: " ++ cfg.CacheSize)
    | some size =>
      match atoi cfg.MaxUnAuthTimes with
      | none => Except.error ("max_unauth_times is wrong with value: " ++ cfg.MaxUnAuthTimes)
      | some mx =>
        Except.ok { maxUnAuthTimes := mx, blockDuration := d, cacheSize := size }

/-! ### `ServeHTTP` -/

/-- One inbound request: its remote address, the response-writer calls the
downstream handler would make, and the error the downstream handler would
return (`none` for nil). -/
structure Request where
  remoteAddr : String
  nextActions : List RWAction
  nextErr : Option String
deriving DecidableEq, Repr

/-- Observable outcome of `ServeHTTP`: the returned error, the cache and
sink afterwards, the events written to the real response writer `w`, and
whether `next.ServeHTTP` was invoked (lines 98-101 return before the call
at line 104). -/
structure ServeResult where
  ret : Option String
  cache : List CacheEntry
  sink : List String
  written : List WEvent
  invokedNext : Bool
deriving DecidableEq, Repr

/-- The notification line of line 112:
`fmt.Sprintf("!!!! %v, %v, %v", lrw.statusCode, ip, port)`. -/
def notificationLine (status : Nat) (ip port : String) : String :=
  "!!!! " ++ toString status ++ ", " ++ ip ++ ", " ++ port

/-- Lines 94-97: the count read from the cache, zero when absent/expired. -/
def readCount (cache : List CacheEntry) (now : Int) (k : String) : Int :=
  match lruGet cache now k with
  | some v => v
  | none => 0

/-- Host part of the request's remote address (line 93; the split error is
discarded there). -/
def ipOf (r : Request) : String :=
  (splitHostPort r.remoteAddr).1

/-- Port part of the request's remote address (line 93). -/
def portOf (r : Request) : String :=
  (splitHostPort r.remoteAddr).2.1

/-- Status recorded by the wrapper after the downstream handler ran. -/
def capturedStatus (r : Request) : Nat :=
  (runActions NewLoggingResponseWriter r.nextActions).statusCode

/-- `Middleware.ServeHTTP` (lines 92-115). -/
def serveHTTP (m : Middleware) (cache : List CacheEntry) (now : Int)
    (sink : List String) (r : Request) : ServeResult :=
  let ip := ipOf r
  let port := portOf r
  let unAuthTimes : Int := readCount cache now ip
  if unAuthTimes > m.maxUnAuthTimes then
    { ret := none, cache := cache, sink := sink,
      written := [WEvent.header 401], invokedNext := false }
  else
    let lrw := runActions NewLoggingResponseWriter r.nextActions
    match r.nextErr with
    | some e =>
      { ret := some e, cache := cache, sink := sink,
        written := lrw.events, invokedNext := true }
    | none =>
      if lrw.statusCode = 401 ∨ lrw.statusCode = 403 then
        { ret := none,
          cache := lruAdd cache now m.blockDuration m.cacheSize ip (unAuthTimes + 1),
          sink := sink ++ [notificationLine lrw.statusCode ip port],
          written := lrw.events, invokedNext := true }
      else
        { ret := none, cache := cache, sink := sink,
          written := lrw.events, invokedNext := true }

/-! ### Auxiliary characterizations -/

/-- Code of the first status-setting call in a downstream action sequence
(the quantity the wrapper is described as recording). -/
def firstSetCode : List RWAction → Option Nat
  | [] => none
  | RWAction.writeHeader c :: _ => some c
  | RWAction.write _ :: rest => firstSetCode rest

/-- Whether `needle` is a prefix of `hay`. -/
def beginsWith : List Char → List Char → Bool
  | _, [] => true
  | [], _ :: _ => false
  | a :: rest, b :: bs => a == b && beginsWith rest bs

/-- Whether `needle` occurs contiguously inside `hay`. -/
def hasSubstring : List Char → List Char → Bool
  | [], needle => needle.isEmpty
  | c :: rest, needle => beginsWith (c :: rest) needle || hasSubstring rest needle

/-! ### Concurrent counter updates

Each in-flight request executes the per-key counter protocol of
`ServeHTTP`: it reads the stored count when it arrives (line 95) and,
after the downstream forward completes with an authorization-failure
status, writes back the value it read plus one (line 111).  The two cache
operations are individually atomic but nothing serializes the span
between them, so concurrent requests interleave freely.  A schedule is a
list of thread indices; the first occurrence of an index performs that
thread's read, the second performs its write.
-/

/-- The value a request writes back: its earlier read plus one
(`unAuthTimes+1`, line 111). -/
def requestWriteValue (readVal : Int) : Int := readVal + 1

/-- One in-flight updater: the count it has read (if it has reached line
95) and whether it has performed its write (line 111). -/
structure UpdaterState where
  readVal : Option Int
  done : Bool
deriving DecidableEq, Repr

/-- The shared counter for one client key plus the in-flight updaters. -/
structure ConcState where
  counter : Int
  threads : List UpdaterState
deriving DecidableEq, Repr

/-- Initial state: counter zero (fresh key), `n` updaters yet to read. -/
def initConc (n : Nat) : ConcState :=
  { counter := 0, threads := List.replicate n { readVal := none, done := false } }

/-- Let updater `i` take its next atomic cache operation: its read if it
has not read yet, else its write of `requestWriteValue` of its read;
finished or out-of-range indices do nothing. -/
def stepThread (st : ConcState) (i : Nat) : ConcState :=
  match st.threads.get? i with
  | none => st
  | some t =>
    match t.readVal with
    | none =>
      { st with threads := st.threads.set i { readVal := some st.counter, done := false } }
    | some v =>
      if t.done then st
      else
        { counter := requestWriteValue v,
          threads := st.threads.set i { readVal := some v, done := true } }

/-- Run a schedule of atomic steps from the initial state for `n` updaters. -/
def runSched (n : Nat) (sched : List Nat) : ConcState :=
  sched.foldl stepThread (initConc n)

/-- The serial schedule: each updater completes its read and write before
the next one starts. -/
def serialSched (n : Nat) : List Nat :=
  (List.range n).flatMap (fun i => [i, i])

/-! ## Helper lemmas -/

/-- Folding `lastSetStep` from any accumulator keeps the last set code and
falls back to the accumulator. -/
theorem foldl_lastSetStep (acts : List RWAction) (acc : Option Nat) :
    acts.foldl lastSetStep acc
      = match lastSetCode acts with
        | some c => some c
        | none => acc := by
  induction acts generalizing acc with
  | nil => rfl
  | cons a rest ih =>
    show rest.foldl lastSetStep (lastSetStep acc a)
      = match (a :: rest).foldl lastSetStep none with
        | some c => some c
        | none => acc
    rw [List.foldl_cons, ih (lastSetStep acc a), ih (lastSetStep none a)]
    cases h : lastSetCode rest with
    | some c => rfl
    | none => cases a <;> rfl

/-- The wrapper's recorded status after running the downstream calls is the
code of the last `WriteHeader` call, or the initial one if none occurred. -/
theorem runActions_statusCode (acts : List RWAction) (lrw : LoggingResponseWriter) :
    (runActions lrw acts).statusCode
      = match lastSetCode acts with
        | some c => c
        | none => lrw.statusCode := by
  induction acts generalizing lrw with
  | nil => rfl
  | cons a rest ih =>
    show (runActions (applyAction lrw a) rest).statusCode
      = match lastSetCode (a :: rest) with
        | some c => c
        | none => lrw.statusCode
    rw [ih]
    show _ = match rest.foldl lastSetStep (lastSetStep none a) with
      | some c => c
      | none => lrw.statusCode
    rw [foldl_lastSetStep rest (lastSetStep none a)]
    cases h : lastSetCode rest with
    | some c => rfl
    | none => cases a <;> rfl

/-- All downstream calls pass through to the wrapped writer, in order and
unmodified. -/
theorem runActions_events (acts : List RWAction) (lrw : LoggingResponseWriter) :
    (runActions lrw acts).events = lrw.events ++ acts.map actionEvent := by
  induction acts generalizing lrw with
  | nil => simp [runActions]
  | cons a rest ih =>
    show (runActions (applyAction lrw a) rest).events = lrw.events ++ (a :: rest).map actionEvent
    rw [ih]
    cases a <;> simp [applyAction, lrwWriteHeader, lrwWrite, actionEvent]

/-- Rejection branch of `ServeHTTP` (lines 98-101). -/
theorem serveHTTP_reject (m : Middleware) (cache : List CacheEntry) (now : Int)
    (sink : List String) (r : Request)
    (h : readCount cache now (ipOf r) > m.maxUnAuthTimes) :
    serveHTTP m cache now sink r
      = { ret := none, cache := cache, sink := sink,
          written := [WEvent.header 401], invokedNext := false } := by
  simp only [serveHTTP]
  rw [if_pos h]

/-- Transport-error branch of `ServeHTTP` (lines 104-107). -/
theorem serveHTTP_err (m : Middleware) (cache : List CacheEntry) (now : Int)
    (sink : List String) (r : Request) (e : String)
    (hle : ¬ readCount cache now (ipOf r) > m.maxUnAuthTimes)
    (he : r.nextErr = some e) :
    serveHTTP m cache now sink r
      = { ret := some e, cache := cache, sink := sink,
          written := (runActions NewLoggingResponseWriter r.nextActions).events,
          invokedNext := true } := by
  simp only [serveHTTP]
  rw [if_neg hle, he]

/-- Authorization-failure branch of `ServeHTTP` (lines 109-113). -/
theorem serveHTTP_fail (m : Middleware) (cache : List CacheEntry) (now : Int)
    (sink : List String) (r : Request)
    (hle : ¬ readCount cache now (ipOf r) > m.maxUnAuthTimes)
    (he : r.nextErr = none)
    (hs : capturedStatus r = 401 ∨ capturedStatus r = 403) :
    serveHTTP m cache now sink r
      = { ret := none,
          cache := lruAdd cache now m.blockDuration m.cacheSize (ipOf r)
            (readCount cache now (ipOf r) + 1),
          sink := sink ++ [notificationLine (capturedStatus r) (ipOf r) (portOf r)],
          written := (runActions NewLoggingResponseWriter r.nextActions).events,
          invokedNext := true } := by
  simp only [serveHTTP]
  rw [if_neg hle, he]
  simp only [capturedStatus] at hs
  simp only [if_pos hs, capturedStatus]

/-- Pass-through branch of `ServeHTTP` (line 114 with no failure status). -/
theorem serveHTTP_pass (m : Middleware) (cache : List CacheEntry) (now : Int)
    (sink : List String) (r : Request)
    (hle : ¬ readCount cache now (ipOf r) > m.maxUnAuthTimes)
    (he : r.nextErr = none)
    (hs : ¬ (capturedStatus r = 401 ∨ capturedStatus r = 403)) :
    serveHTTP m cache now sink r
      = { ret := none, cache := cache, sink := sink,
          written := (runActions NewLoggingResponseWriter r.nextActions).events,
          invokedNext := true } := by
  simp only [serveHTTP]
  rw [if_neg hle, he]
  simp only [capturedStatus] at hs
  simp only [if_neg hs]

/-- Whenever the request is admitted, the downstream handler is invoked. -/
theorem serveHTTP_invoked_of_le (m : Middleware) (cache : List CacheEntry) (now : Int)
    (sink : List String) (r : Request)
    (hle : ¬ readCount cache now (ipOf r) > m.maxUnAuthTimes) :
    (serveHTTP m cache now sink r).invokedNext = true := by
  cases he : r.nextErr with
  | some e => rw [serveHTTP_err m cache now sink r e hle he]
  | none =>
    by_cases hs : capturedStatus r = 401 ∨ capturedStatus r = 403
    · rw [serveHTTP_fail m cache now sink r hle he hs]
    · rw [serveHTTP_pass m cache now sink r hle he hs]

/-- The raw count stored for a key right after `Add` is the added value:
the fresh entry sits at the front, and eviction — which requires at least
two entries — only ever removes the tail. -/
theorem storedCount_lruAdd (cache : List CacheEntry) (now ttl size : Int)
    (k : String) (v : Int) :
    storedCount (lruAdd cache now ttl size k v) k = some v := by
  unfold lruAdd evictOldest
  split
  case isTrue h =>
    have hne : cache.filter (fun e => !(e.key == k)) ≠ [] := by
      intro hnil
      rw [hnil] at h
      simp at h
      omega
    obtain ⟨b, bs, hbs⟩ := List.exists_cons_of_ne_nil hne
    rw [hbs, List.dropLast_cons₂]
    simp [storedCount, List.find?]
  case isFalse h =>
    simp [storedCount, List.find?]

/-- Every entry present after `Add` is the freshly inserted one or was
already in the store. -/
theorem mem_lruAdd (cache : List CacheEntry) (now ttl size : Int) (k : String) (v : Int)
    (e : CacheEntry) (he : e ∈ lruAdd cache now ttl size k v) :
    e = { key := k, count := v, expiresAt := now + ttl } ∨ e ∈ cache := by
  unfold lruAdd evictOldest at he
  have hmem : e ∈ ({ key := k, count := v, expiresAt := now + ttl } : CacheEntry)
      :: cache.filter (fun x => !(x.key == k)) := by
    split at he
    · exact List.dropLast_subset _ he
    · exact he
  rcases List.mem_cons.mp hmem with h | h
  · exact Or.inl h
  · exact Or.inr (List.mem_of_mem_filter h)

/-- A count returned by `Get` is carried by some entry of the store. -/
theorem lruGet_mem (cache : List CacheEntry) (now : Int) (k : String) (v : Int)
    (h : lruGet cache now k = some v) :
    ∃ e ∈ cache, e.count = v := by
  unfold lruGet at h
  cases hf : cache.find? (fun e => e.key == k) with
  | none => rw [hf] at h; exact absurd h (by simp)
  | some e =>
    rw [hf] at h
    change (if now < e.expiresAt then some e.count else none) = some v at h
    by_cases hexp : now < e.expiresAt
    · rw [if_pos hexp] at h
      exact ⟨e, List.mem_of_find?_eq_some hf, by injection h⟩
    · rw [if_neg hexp] at h
      exact absurd h (by simp)

/-- On any split error, both returned address components are empty. -/
theorem splitHostPort_error_empty (s : String) :
    (splitHostPort s).2.2 = none ∨ ((splitHostPort s).1 = "" ∧ (splitHostPort s).2.1 = "") := by
  simp only [splitHostPort]
  repeat' split
  all_goals simp

/-- Two consecutive steps of a fresh updater perform its read and then its
write of the read plus one. -/
theorem stepThread_twice (st : ConcState) (i : Nat)
    (hi : st.threads.get? i = some { readVal := none, done := false }) :
    stepThread (stepThread st i) i
      = { counter := st.counter + 1,
          threads := st.threads.set i { readVal := some st.counter, done := true } } := by
  have hlen : i < st.threads.length := by
    by_contra hge
    rw [List.get?_eq_none.mpr (Nat.le_of_not_lt hge)] at hi
    exact absurd hi (by simp)
  have h1 : stepThread st i
      = { st with threads := st.threads.set i { readVal := some st.counter, done := false } } := by
    unfold stepThread
    rw [hi]
  rw [h1]
  unfold stepThread
  rw [show (st.threads.set i { readVal := some st.counter, done := false }).get? i
        = some { readVal := some st.counter, done := false } from
      List.get?_set_eq_of_lt _ (by simpa using hlen)]
  simp [requestWriteValue]

/-- Running the serial schedule over a set of fresh, distinct updaters adds
one to the counter per updater. -/
theorem runSched_serial_aux (l : List Nat) (st : ConcState) (hn : l.Nodup)
    (hfresh : ∀ i ∈ l, st.threads.get? i = some { readVal := none, done := false }) :
    ((l.flatMap (fun i => [i, i])).foldl stepThread st).counter = st.counter + l.length := by
  induction l generalizing st with
  | nil => simp
  | cons i rest ih =>
    have hi := hfresh i (List.mem_cons_self i rest)
    rw [List.flatMap_cons, List.foldl_append]
    show ((rest.flatMap (fun i => [i, i])).foldl stepThread
        (stepThread (stepThread st i) i)).counter = st.counter + (i :: rest).length
    rw [stepThread_twice st i hi]
    have hrest : ∀ j ∈ rest,
        (st.threads.set i { readVal := some st.counter, done := true }).get? j
          = some { readVal := none, done := false } := by
      intro j hj
      have hne : j ≠ i := fun hji => (List.nodup_cons.mp hn).1 (hji ▸ hj)
      rw [List.get?_set_ne _ _ (Ne.symm hne)]
      exact hfresh j (List.mem_cons_of_mem i hj)
    rw [ih _ (List.Nodup.of_cons hn) hrest]
    simp
    omega

/-! ## Claim theorems -/

/-- C1: letting `c` be the count stored for the request's client key (zero
if absent or expired) and `max` the configured maximum, the request is
rejected — downstream never invoked, 401 written — exactly when `c > max`,
and otherwise forwarded; a fresh key (`c = 0`) with `max ≥ 0` is always
admitted. -/
theorem serveHTTP_threshold_admission (m : Middleware) (cache : List CacheEntry)
    (now : Int) (sink : List String) (r : Request) :
    ((serveHTTP m cache now sink r).invokedNext = false
      ↔ readCount cache now (ipOf r) > m.maxUnAuthTimes)
    ∧ (readCount cache now (ipOf r) > m.maxUnAuthTimes →
        serveHTTP m cache now sink r
          = { ret := none, cache := cache, sink := sink,
              written := [WEvent.header 401], invokedNext := false })
    ∧ (readCount cache now (ipOf r) = 0 → 0 ≤ m.maxUnAuthTimes →
        (serveHTTP m cache now sink r).invokedNext = true) := by
  refine ⟨⟨?_, ?_⟩, ?_, ?_⟩
  · intro hfalse
    by_contra hnot
    rw [serveHTTP_invoked_of_le m cache now sink r hnot] at hfalse
    simp at hfalse
  · intro h
    rw [serveHTTP_reject m cache now sink r h]
  · intro h
    rw [serveHTTP_reject m cache now sink r h]
  · intro h0 hmax
    refine serveHTTP_invoked_of_le m cache now sink r ?_
    rw [h0]
    exact not_lt.mpr hmax

/-- Witness for C1: with maximum 0 and an empty store, a request from a
fresh client is admitted and forwarded. -/
theorem serveHTTP_threshold_admission_witness :
    (serveHTTP { maxUnAuthTimes := 0, blockDuration := 10, cacheSize := 100 } [] 0 []
      { remoteAddr := "1.2.3.4:80", nextActions := [], nextErr := none }).invokedNext
      = true :=
  (serveHTTP_threshold_admission { maxUnAuthTimes := 0, blockDuration := 10, cacheSize := 100 }
    [] 0 [] { remoteAddr := "1.2.3.4:80", nextActions := [], nextErr := none }).2.2
    (by decide) (by decide)

/-- C2: for an admitted request whose forward returns no transport error,
the stored counter becomes the previously read count plus one and exactly
one notification line is appended to the sink precisely when the captured
status is 401 or 403; on a first failure the stored count is 1. -/
theorem serveHTTP_failure_update (m : Middleware) (cache : List CacheEntry)
    (now : Int) (sink : List String) (r : Request)
    (hadm : readCount cache now (ipOf r) ≤ m.maxUnAuthTimes)
    (hok : r.nextErr = none) :
    ((capturedStatus r = 401 ∨ capturedStatus r = 403) →
      (serveHTTP m cache now sink r).cache
          = lruAdd cache now m.blockDuration m.cacheSize (ipOf r) (readCount cache now (ipOf r) + 1)
        ∧ storedCount (serveHTTP m cache now sink r).cache (ipOf r)
          = some (readCount cache now (ipOf r) + 1)
        ∧ (serveHTTP m cache now sink r).sink
          = sink ++ [notificationLine (capturedStatus r) (ipOf r) (portOf r)])
    ∧ (¬ (capturedStatus r = 401 ∨ capturedStatus r = 403) →
        (serveHTTP m cache now sink r).cache = cache
        ∧ (serveHTTP m cache now sink r).sink = sink)
    ∧ (lruGet cache now (ipOf r) = none →
        (capturedStatus r = 401 ∨ capturedStatus r = 403) →
        storedCount (serveHTTP m cache now sink r).cache (ipOf r) = some 1) := by
  have hle := not_lt.mpr hadm
  refine ⟨?_, ?_, ?_⟩
  · intro hs
    rw [serveHTTP_fail m cache now sink r hle hok hs]
    exact ⟨rfl, storedCount_lruAdd cache now m.blockDuration m.cacheSize (ipOf r) _, rfl⟩
  · intro hs
    rw [serveHTTP_pass m cache now sink r hle hok hs]
    exact ⟨rfl, rfl⟩
  · intro hnone hs
    have h0 : readCount cache now (ipOf r) = 0 := by
      unfold readCount
      rw [hnone]
    rw [serveHTTP_fail m cache now sink r hle hok hs, h0]
    simpa using storedCount_lruAdd cache now m.blockDuration m.cacheSize (ipOf r) (0 + 1)

/-- Witness for C2: a first 401 for a fresh client stores count 1. -/
theorem serveHTTP_failure_update_witness :
    storedCount (serveHTTP { maxUnAuthTimes := 2, blockDuration := 10, cacheSize := 100 }
        [] 0 [] { remoteAddr := "1.2.3.4:80",
                  nextActions := [RWAction.writeHeader 401], nextErr := none }).cache
      "1.2.3.4" = some 1 := by
  have h := (serveHTTP_failure_update { maxUnAuthTimes := 2, blockDuration := 10, cacheSize := 100 }
    [] 0 [] { remoteAddr := "1.2.3.4:80",
              nextActions := [RWAction.writeHeader 401], nextErr := none }
    (by decide) rfl).2.2 (by decide) (by decide)
  have hip : ipOf { remoteAddr := "1.2.3.4:80", nextActions := [RWAction.writeHeader 401], nextErr := none } = "1.2.3.4" := by decide
  rw [hip] at h
  exact h

/-- C3: when the downstream forward returns a transport-level error, that
error is returned unchanged and neither the counter store nor the sink is
touched. -/
theorem serveHTTP_transport_error_propagates (m : Middleware) (cache : List CacheEntry)
    (now : Int) (sink : List String) (r : Request) (e : String)
    (hadm : readCount cache now (ipOf r) ≤ m.maxUnAuthTimes)
    (herr : r.nextErr = some e) :
    (serveHTTP m cache now sink r).ret = some e
    ∧ (serveHTTP m cache now sink r).cache = cache
    ∧ (serveHTTP m cache now sink r).sink = sink := by
  rw [serveHTTP_err m cache now sink r e (not_lt.mpr hadm) herr]
  exact ⟨rfl, rfl, rfl⟩

/-- Witness for C3: a concrete failing forward propagates its error with
the store and sink untouched. -/
theorem serveHTTP_transport_error_propagates_witness :
    (serveHTTP { maxUnAuthTimes := 2, blockDuration := 10, cacheSize := 100 }
        [] 0 [] { remoteAddr := "1.2.3.4:80",
                  nextActions := [RWAction.writeHeader 401],
                  nextErr := some "boom" }).ret = some "boom" :=
  (serveHTTP_transport_error_propagates { maxUnAuthTimes := 2, blockDuration := 10, cacheSize := 100 }
    [] 0 [] { remoteAddr := "1.2.3.4:80",
              nextActions := [RWAction.writeHeader 401], nextErr := some "boom" }
    "boom" (by decide) rfl).1

/-- C4: a rejected request causes no state change beyond the 401 status
written to the response: downstream is never invoked, every counter entry
is unchanged, and nothing is appended to the sink. -/
theorem serveHTTP_rejection_no_side_effects (m : Middleware) (cache : List CacheEntry)
    (now : Int) (sink : List String) (r : Request)
    (hrej : readCount cache now (ipOf r) > m.maxUnAuthTimes) :
    serveHTTP m cache now sink r
      = { ret := none, cache := cache, sink := sink,
          written := [WEvent.header 401], invokedNext := false } :=
  serveHTTP_reject m cache now sink r hrej

/-- Witness for C4: a blocked client's request leaves the store and sink
exactly as they were. -/
theorem serveHTTP_rejection_no_side_effects_witness :
    serveHTTP { maxUnAuthTimes := 1, blockDuration := 10, cacheSize := 100 }
        [{ key := "1.2.3.4", count := 5, expiresAt := 50 }] 0 ["old"]
        { remoteAddr := "1.2.3.4:80", nextActions := [RWAction.writeHeader 200],
          nextErr := none }
      = { ret := none,
          cache := [{ key := "1.2.3.4", count := 5, expiresAt := 50 }],
          sink := ["old"], written := [WEvent.header 401], invokedNext := false } :=
  serveHTTP_rejection_no_side_effects { maxUnAuthTimes := 1, blockDuration := 10, cacheSize := 100 }
    [{ key := "1.2.3.4", count := 5, expiresAt := 50 }] 0 ["old"]
    { remoteAddr := "1.2.3.4:80", nextActions := [RWAction.writeHeader 200], nextErr := none }
    (by decide)

/-- C10: blocking a client is reported upstream as success: the rejection
path writes the 401 status and returns a nil error. -/
theorem serveHTTP_rejection_returns_nil (m : Middleware) (cache : List CacheEntry)
    (now : Int) (sink : List String) (r : Request)
    (hrej : readCount cache now (ipOf r) > m.maxUnAuthTimes) :
    (serveHTTP m cache now sink r).ret = none
    ∧ (serveHTTP m cache now sink r).written = [WEvent.header 401] := by
  rw [serveHTTP_reject m cache now sink r hrej]
  exact ⟨rfl, rfl⟩

/-- Witness for C10: a concrete blocked request returns nil after writing
the unauthorized status. -/
theorem serveHTTP_rejection_returns_nil_witness :
    (serveHTTP { maxUnAuthTimes := 0, blockDuration := 10, cacheSize := 100 }
        [{ key := "1.2.3.4", count := 3, expiresAt := 50 }] 0 []
        { remoteAddr := "1.2.3.4:80", nextActions := [], nextErr := none }).ret
      = none :=
  (serveHTTP_rejection_returns_nil { maxUnAuthTimes := 0, blockDuration := 10, cacheSize := 100 }
    [{ key := "1.2.3.4", count := 3, expiresAt := 50 }] 0 []
    { remoteAddr := "1.2.3.4:80", nextActions := [], nextErr := none }
    (by decide)).1

/-- C5 counterexample: with block duration `"0s"` (TTL = 0) and cache size
`"0"` (capacity = 0) construction succeeds, and the resulting middleware
serves (admits and forwards) a request — refuting the claim that
construction fails whenever capacity ≤ 0 or TTL ≤ 0 and that the
component then refuses to serve. -/
theorem provision_accepts_nonpositive_config :
    Provision { MaxUnAuthTimes := "0", BlockDuration := "0s", CacheSize := "0" }
      = Except.ok { maxUnAuthTimes := 0, blockDuration := 0, cacheSize := 0 }
    ∧ (serveHTTP { maxUnAuthTimes := 0, blockDuration := 0, cacheSize := 0 } [] 0 []
        { remoteAddr := "1.2.3.4:80", nextActions := [], nextErr := none }).invokedNext
      = true :=
  ⟨rfl, by decide⟩

/-- C5 amended: construction fails exactly when one of the three
configuration strings fails to parse (a malformed duration or integer);
the signs of the parsed values are never checked. -/
theorem provision_fails_only_on_parse_errors (cfg : MiddlewareConfig) :
    (Provision cfg).toOption.isSome
      = ((parseDuration cfg.BlockDuration).isSome
          && ((atoi cfg.CacheSize).isSome && (atoi cfg.MaxUnAuthTimes).isSome)) := by
  unfold Provision
  cases hd : parseDuration cfg.BlockDuration <;>
    cases hc : atoi cfg.CacheSize <;>
      cases hm : atoi cfg.MaxUnAuthTimes <;>
        simp [Except.toOption]

/-- C6 counterexample: when the downstream handler sets a status twice
(first 401, then 200), the wrapper's recorded status is the code of the
last call, not the first. -/
theorem loggingWriter_overwrites_first_status :
    firstSetCode [RWAction.writeHeader 401, RWAction.writeHeader 200] = some 401
    ∧ (runActions NewLoggingResponseWriter
        [RWAction.writeHeader 401, RWAction.writeHeader 200]).statusCode = 200
    ∧ (200 : Nat) ≠ 401 := by
  decide

/-- C6 amended: the wrapper's recorded status equals the code of the last
status-setting call of the downstream handler — 200 when it never sets
one — and every call passes through to the underlying writer unmodified
and in order. -/
theorem loggingWriter_records_last_status (acts : List RWAction) :
    (runActions NewLoggingResponseWriter acts).statusCode = (lastSetCode acts).getD 200
    ∧ (runActions NewLoggingResponseWriter acts).events = acts.map actionEvent := by
  constructor
  · rw [runActions_statusCode acts NewLoggingResponseWriter]
    cases lastSetCode acts <;> rfl
  · rw [runActions_events acts NewLoggingResponseWriter]
    rfl

/-- C7 amended: every notification line consists of the fixed marker, the
captured status code, the host component and the port component of the
remote address; when the address cannot be split, both components are
empty strings (the extraction error of line 93 is discarded). -/
theorem notification_line_fields (m : Middleware) (cache : List CacheEntry)
    (now : Int) (sink : List String) (r : Request)
    (hadm : readCount cache now (ipOf r) ≤ m.maxUnAuthTimes)
    (hok : r.nextErr = none)
    (hs : capturedStatus r = 401 ∨ capturedStatus r = 403) :
    (serveHTTP m cache now sink r).sink
      = sink ++ ["!!!! " ++ toString (capturedStatus r) ++ ", " ++ ipOf r ++ ", " ++ portOf r]
    ∧ ((splitHostPort r.remoteAddr).2.2 ≠ none → ipOf r = "" ∧ portOf r = "") := by
  constructor
  · rw [serveHTTP_fail m cache now sink r (not_lt.mpr hadm) hok hs]
    rfl
  · intro herr
    rcases splitHostPort_error_empty r.remoteAddr with h | h
    · exact absurd h herr
    · exact h

/-- Witness for the amended C7: for an unsplittable remote address the
host and port fields of the notification are both empty. -/
theorem notification_line_fields_witness :
    ipOf { remoteAddr := "abc", nextActions := [RWAction.writeHeader 401],
           nextErr := none } = ""
    ∧ portOf { remoteAddr := "abc", nextActions := [RWAction.writeHeader 401],
               nextErr := none } = "" :=
  (notification_line_fields { maxUnAuthTimes := 1, blockDuration := 10, cacheSize := 100 }
    [] 0 [] { remoteAddr := "abc", nextActions := [RWAction.writeHeader 401], nextErr := none }
    (by decide) rfl (by decide)).2 (by decide)

/-- C7 counterexample: for an unsplittable remote address the line written
for a 401 carries empty host and port fields and does not contain the
extraction error. -/
theorem notification_line_omits_split_error :
    (serveHTTP { maxUnAuthTimes := 1, blockDuration := 10, cacheSize := 100 } [] 0 []
        { remoteAddr := "abc", nextActions := [RWAction.writeHeader 401],
          nextErr := none }).sink
      = ["!!!! 401, , "]
    ∧ (splitHostPort "abc").2.2 = some "missing port in address"
    ∧ hasSubstring "!!!! 401, , ".toList "missing port in address".toList = false := by
  decide

/-- C8 counterexample: two concurrent authorization-failure updates that
both read before either writes leave the counter at 1, not 2 — the final
count after N concurrent updates need not equal N. -/
theorem concurrent_updates_lose_increments :
    (runSched 2 [0, 1, 0, 1]).counter = 1
    ∧ (∀ t ∈ (runSched 2 [0, 1, 0, 1]).threads, t.done = true)
    ∧ (1 : Int) ≠ 2 := by
  decide

/-- C8 amended: each update writes back its earlier read plus one, so only
serialized executions are guaranteed to accumulate: the serial schedule
of N updates yields a final count of exactly N, while overlapping
interleavings can lose increments. -/
theorem serial_updates_accumulate (n : Nat) :
    (runSched n (serialSched n)).counter = n := by
  have h := runSched_serial_aux (List.range n) (initConc n) (List.nodup_range n) ?_
  · simpa [runSched, serialSched, initConc] using h
  · intro i hi
    have hilt : i < n := List.mem_range.mp hi
    simp [initConc, List.get?_eq_getElem?, List.getElem?_replicate, hilt]

/-- C9: every count ever stored in the cache is at least 1 — assuming all
present entries carry counts ≥ 1, after any request every entry still
does, and the only possible cache change is the insertion of the
previously read count (0 if absent) plus one. -/
theorem cache_counts_stay_positive (m : Middleware) (cache : List CacheEntry)
    (now : Int) (sink : List String) (r : Request)
    (hinv : ∀ e ∈ cache, 1 ≤ e.count) :
    (∀ e ∈ (serveHTTP m cache now sink r).cache, 1 ≤ e.count)
    ∧ ((serveHTTP m cache now sink r).cache = cache
        ∨ (serveHTTP m cache now sink r).cache
            = lruAdd cache now m.blockDuration m.cacheSize (ipOf r)
                (readCount cache now (ipOf r) + 1)) := by
  have hc : 0 ≤ readCount cache now (ipOf r) := by
    unfold readCount
    cases hg : lruGet cache now (ipOf r) with
    | none => exact le_refl 0
    | some v =>
      obtain ⟨e, he, hev⟩ := lruGet_mem cache now (ipOf r) v hg
      calc (0 : Int) ≤ 1 := by norm_num
        _ ≤ e.count := hinv e he
        _ = v := hev
  have hAdd : ∀ e ∈ lruAdd cache now m.blockDuration m.cacheSize (ipOf r)
      (readCount cache now (ipOf r) + 1), 1 ≤ e.count := by
    intro e he
    rcases mem_lruAdd cache now m.blockDuration m.cacheSize (ipOf r)
        (readCount cache now (ipOf r) + 1) e he with rfl | hmem
    · simpa using hc
    · exact hinv e hmem
  by_cases hrej : readCount cache now (ipOf r) > m.maxUnAuthTimes
  · rw [serveHTTP_reject m cache now sink r hrej]
    exact ⟨hinv, Or.inl rfl⟩
  · cases he : r.nextErr with
    | some e =>
      rw [serveHTTP_err m cache now sink r e hrej he]
      exact ⟨hinv, Or.inl rfl⟩
    | none =>
      by_cases hs : capturedStatus r = 401 ∨ capturedStatus r = 403
      · rw [serveHTTP_fail m cache now sink r hrej he hs]
        exact ⟨hAdd, Or.inr rfl⟩
      · rw [serveHTTP_pass m cache now sink r hrej he hs]
        exact ⟨hinv, Or.inl rfl⟩

/-- Witness for C9: a first failure for a fresh key alongside an existing
entry changes the cache only by inserting the read count plus one. -/
theorem cache_counts_stay_positive_witness :
    (serveHTTP { maxUnAuthTimes := 9, blockDuration := 10, cacheSize := 100 }
        [{ key := "5.6.7.8", count := 2, expiresAt := 50 }] 0 []
        { remoteAddr := "1.2.3.4:80", nextActions := [RWAction.writeHeader 403],
          nextErr := none }).cache
      = [{ key := "5.6.7.8", count := 2, expiresAt := 50 }]
    ∨ (serveHTTP { maxUnAuthTimes := 9, blockDuration := 10, cacheSize := 100 }
        [{ key := "5.6.7.8", count := 2, expiresAt := 50 }] 0 []
        { remoteAddr := "1.2.3.4:80", nextActions := [RWAction.writeHeader 403],
          nextErr := none }).cache
      = lruAdd [{ key := "5.6.7.8", count := 2, expiresAt := 50 }] 0 10 100
          (ipOf { remoteAddr := "1.2.3.4:80", nextActions := [RWAction.writeHeader 403],
                  nextErr := none })
          (readCount [{ key := "5.6.7.8", count := 2, expiresAt := 50 }] 0
            (ipOf { remoteAddr := "1.2.3.4:80", nextActions := [RWAction.writeHeader 403],
                    nextErr := none }) + 1) :=
  (cache_counts_stay_positive { maxUnAuthTimes := 9, blockDuration := 10, cacheSize := 100 }
    [{ key := "5.6.7.8", count := 2, expiresAt := 50 }] 0 []
    { remoteAddr := "1.2.3.4:80", nextActions := [RWAction.writeHeader 403], nextErr := none }
    (by decide)).2

end CaddyBlocker
